import Mathlib

/-!
Verification of the Linux/ELF backend of the findshlibs crate
(`src/linux/mod.rs`): segment views over ELF program headers, the
GNU build-id note scanner behind `SharedLibrary::id`, the
`dl_iterate_phdr` enumeration bridge (`callback` / `each`), and the
`Debug` implementations.

Machine integers are modelled as `Nat` (the Rust code performs no
wrapping arithmetic on the paths modelled here); raw process memory is
modelled as a byte oracle `Nat → Nat` (each byte taken mod 256, reads
little-endian as on supported Linux targets); Rust panics are modelled
as `none` / explicit payload values; fallible lookups as `Option`.
-/

namespace Findshlibs

/-- ELF program-header type constant `PT_NULL` (libc). -/
def PT_NULL : Nat := 0

/-- ELF program-header type constant `PT_LOAD` (libc). -/
def PT_LOAD : Nat := 1

/-- ELF program-header type constant `PT_DYNAMIC` (libc). -/
def PT_DYNAMIC : Nat := 2

/-- ELF program-header type constant `PT_INTERP` (libc). -/
def PT_INTERP : Nat := 3

/-- ELF program-header type constant `PT_NOTE` (libc). -/
def PT_NOTE : Nat := 4

/-- ELF program-header type constant `PT_SHLIB` (libc). -/
def PT_SHLIB : Nat := 5

/-- ELF program-header type constant `PT_PHDR` (libc). -/
def PT_PHDR : Nat := 6

/-- ELF program-header type constant `PT_TLS` (libc). -/
def PT_TLS : Nat := 7

/-- ELF program-header type constant `PT_NUM` (libc). -/
def PT_NUM : Nat := 8

/-- ELF program-header type constant `PT_LOOS` (libc). -/
def PT_LOOS : Nat := 0x60000000

/-- ELF program-header type constant `PT_GNU_EH_FRAME` (libc). -/
def PT_GNU_EH_FRAME : Nat := 0x6474e550

/-- ELF program-header type constant `PT_GNU_STACK` (libc). -/
def PT_GNU_STACK : Nat := 0x6474e551

/-- ELF program-header type constant `PT_GNU_RELRO` (libc). -/
def PT_GNU_RELRO : Nat := 0x6474e552

/-- Note type constant `NT_GNU_BUILD_ID` from `src/linux/mod.rs`. -/
def NT_GNU_BUILD_ID : Nat := 3

/-- One ELF program header (`Elf32_Phdr` / `Elf64_Phdr`).  The two
layouts share the same field set; field values are modelled as `Nat`. -/
structure Phdr where
  p_type : Nat
  p_flags : Nat
  p_offset : Nat
  p_vaddr : Nat
  p_paddr : Nat
  p_filesz : Nat
  p_memsz : Nat
  p_align : Nat
  deriving DecidableEq, Repr

/-- A default header value, used only as the out-of-range fallback of
`List.getD` at positions proved in range. -/
def phdrDefault : Phdr :=
  { p_type := 0, p_flags := 0, p_offset := 0, p_vaddr := 0, p_paddr := 0,
    p_filesz := 0, p_memsz := 0, p_align := 0 }

/-- Embedding of `Segment::name` from `src/linux/mod.rs`: the label
returned for each raw program-header type code (the trailing NUL of the
Rust C strings is dropped). -/
def segmentName (phdr : Phdr) : String :=
  if phdr.p_type = PT_NULL then "NULL"
  else if phdr.p_type = PT_LOAD then "LOAD"
  else if phdr.p_type = PT_DYNAMIC then "DYNAMIC"
  else if phdr.p_type = PT_INTERP then "INTERP"
  else if phdr.p_type = PT_NOTE then "NOTE"
  else if phdr.p_type = PT_SHLIB then "SHLI"
  else if phdr.p_type = PT_PHDR then "PHDR"
  else if phdr.p_type = PT_TLS then "TLS"
  else if phdr.p_type = PT_NUM then "NUM"
  else if phdr.p_type = PT_LOOS then "LOOS"
  else if phdr.p_type = PT_GNU_EH_FRAME then "GNU_EH_FRAME"
  else if phdr.p_type = PT_GNU_STACK then "GNU_STACK"
  else if phdr.p_type = PT_GNU_RELRO then "GNU_RELRO"
  else "(unknown segment type)"

/-- Embedding of `Segment::is_code` from `src/linux/mod.rs`: a segment
is code iff its type is `PT_LOAD` and the execute bit (0x1) is set in
`p_flags`. -/
def is_code (phdr : Phdr) : Bool :=
  if phdr.p_type = PT_LOAD then (phdr.p_flags &&& 0x1) != 0
  else false

/-- The largest value of `isize` on a 64-bit target (`isize::MAX`). -/
def isizeMax : Nat := 2 ^ 63 - 1

/-- The value-level meaning of Rust's `usize as isize` cast on a 64-bit
target. -/
def usizeToIsize (n : Nat) : Int :=
  if n < 2 ^ 63 then (n : Int) else (n : Int) - 2 ^ 64

/-- Embedding of `SharedLibrary::virtual_memory_bias`: the code asserts
`addr < isize::MAX` (strictly) and then returns `addr as isize`.  The
`assert!` failure (a panic) is modelled as `none`. -/
def virtual_memory_bias (addr : Nat) : Option Int :=
  if addr < isizeMax then some (usizeToIsize addr) else none

/-- Raw process memory as a byte oracle: byte `a` of a concrete image
given as a list (zero outside the image). -/
def memOfList (bytes : List Nat) (a : Nat) : Nat :=
  bytes.getD a 0

/-- Little-endian 32-bit read from the byte oracle: the value of the
`Elf32_Word` stored at address `a`, as read by the `Nhdr32` field
accesses on supported (little-endian) Linux targets. -/
def read32 (mem : Nat → Nat) (a : Nat) : Nat :=
  mem a % 256 + mem (a + 1) % 256 * 256 + mem (a + 2) % 256 * 65536 +
    mem (a + 3) % 256 * 16777216

/-- Embedding of the local `align` helper inside `SharedLibrary::id`:
round `offset` up to the next multiple of `alignment`. -/
def align (alignment offset : Nat) : Nat :=
  let diff := offset % alignment
  if diff ≠ 0 then offset + (alignment - diff) else offset

/-- The note-record walk of `SharedLibrary::id` (its `while offset < end`
loop), made structurally recursive on a fuel argument.  Each loop
iteration advances `offset` by at least the 12-byte `Nhdr32` header, so
the `endO - offset` fuel supplied by `scanNotes` can never be exhausted
while `offset < endO` holds (`scanNotesGo_fuel` below); the fuel-0 case
is therefore unreachable from `scanNotes`. -/
def scanNotesGo (mem : Nat → Nat) (addr alignment endO : Nat) :
    Nat → Nat → Option (List Nat)
  | _, 0 => none
  | offset, fuel + 1 =>
    if offset < endO then
      let namesz := read32 mem (addr + offset)
      let descsz := read32 mem (addr + offset + 4)
      let ntype := read32 mem (addr + offset + 8)
      let offsetDesc := align alignment (offset + 12 + namesz)
      let value := (List.range descsz).map fun i => mem (addr + offsetDesc + i) % 256
      let offsetNext := align alignment (offsetDesc + descsz)
      if ntype = NT_GNU_BUILD_ID then some value
      else scanNotesGo mem addr alignment endO offsetNext fuel
    else none

/-- The note-record walk of one NOTE segment, from `offset` to `endO`,
returning the descriptor of the first record of type
`NT_GNU_BUILD_ID`, or `none`. -/
def scanNotes (mem : Nat → Nat) (addr alignment offset endO : Nat) :
    Option (List Nat) :=
  scanNotesGo mem addr alignment endO offset (endO - offset)

/-- Embedding of `SharedLibrary::id` over the library's header table:
only `PT_NOTE` segments are considered, in table order; a declared
alignment below 4 is replaced by 4; a remaining alignment other than 4
or 8 skips the segment; otherwise the segment's notes are scanned and
the first build-id descriptor found is returned. -/
def idModel (mem : Nat → Nat) (addr : Nat) : List Phdr → Option (List Nat)
  | [] => none
  | phdr :: rest =>
    if phdr.p_type ≠ PT_NOTE then idModel mem addr rest
    else if phdr.p_align < 4 then
      match scanNotes mem addr 4 phdr.p_offset (phdr.p_offset + phdr.p_filesz) with
      | some value => some value
      | none => idModel mem addr rest
    else if phdr.p_align ≠ 4 ∧ phdr.p_align ≠ 8 then idModel mem addr rest
    else
      match scanNotes mem addr phdr.p_align phdr.p_offset (phdr.p_offset + phdr.p_filesz) with
      | some value => some value
      | none => idModel mem addr rest

/-- Spec-side reading of the note walk (specification §4.2/§4.4): the
sequence of note records in the window, each a pair of its 32-bit type
and its descriptor bytes, with name and descriptor padded to the
alignment.  Same fuel discipline as `scanNotesGo`. -/
def parseRecordsGo (mem : Nat → Nat) (addr alignment endO : Nat) :
    Nat → Nat → List (Nat × List Nat)
  | _, 0 => []
  | offset, fuel + 1 =>
    if offset < endO then
      let namesz := read32 mem (addr + offset)
      let descsz := read32 mem (addr + offset + 4)
      let ntype := read32 mem (addr + offset + 8)
      let offsetDesc := align alignment (offset + 12 + namesz)
      let value := (List.range descsz).map fun i => mem (addr + offsetDesc + i) % 256
      let offsetNext := align alignment (offsetDesc + descsz)
      (ntype, value) :: parseRecordsGo mem addr alignment endO offsetNext fuel
    else []

/-- Spec-side record sequence of one NOTE segment's window. -/
def parseRecords (mem : Nat → Nat) (addr alignment offset endO : Nat) :
    List (Nat × List Nat) :=
  parseRecordsGo mem addr alignment endO offset (endO - offset)

/-- Spec-side definition of `id()`, written from the specification's
words (claim C1 / spec §4.2): scan the header table in order keeping
only `PT_NOTE` segments; normalize the declared alignment to a minimum
of 4; skip the segment when the normalized alignment is neither 4 nor
8; otherwise list the note records of the window and return the
descriptor of the first record with type `NT_GNU_BUILD_ID`; `none`
when no NOTE segment or no such record exists. -/
def idSpec (mem : Nat → Nat) (addr : Nat) (headers : List Phdr) :
    Option (List Nat) :=
  headers.findSome? fun phdr =>
    if phdr.p_type = PT_NOTE then
      let normalized := max 4 phdr.p_align
      if normalized = 4 ∨ normalized = 8 then
        ((parseRecords mem addr normalized phdr.p_offset
            (phdr.p_offset + phdr.p_filesz)).find?
          fun record => record.1 == NT_GNU_BUILD_ID).map Prod.snd
      else none
    else none

/-- Modelled from the spec (§4.1): the crate-level iteration-control
type returned by a visitor, `Continue` or `Break` (its declaration
lives outside the Linux backend source file). -/
inductive IterationControl where
  | Continue : IterationControl
  | Break : IterationControl
  deriving DecidableEq, Repr

/-- The outcome of one visitor invocation as observed by
`panic::catch_unwind` inside `SharedLibrary::callback`: either a normal
iteration-control value (`Ok`) or a panic payload (`Err`). -/
inductive VisitOutcome (P : Type) where
  | control : IterationControl → VisitOutcome P
  | panics : P → VisitOutcome P
  deriving DecidableEq, Repr

/-- Embedding of `IterState`: the per-call context threaded through the
native iteration, holding the visitor and the captured panic payload. -/
structure IterState (α P : Type) where
  f : α → VisitOutcome P
  panic : Option P

/-- The `CONTINUE` return code of `src/linux/mod.rs`. -/
def CONTINUE : Int := 0

/-- The `BREAK` return code of `src/linux/mod.rs`. -/
def BREAK : Int := 1

/-- Embedding of `SharedLibrary::callback`: run the visitor on the
entry under `catch_unwind`; `Ok(Continue)` yields `CONTINUE`,
`Ok(Break)` yields `BREAK`, and a panic stores the payload in the state
and yields `BREAK` (no unwinding crosses the foreign frame).  Returns
the native return code and the updated state. -/
def callback {α P : Type} (state : IterState α P) (info : α) :
    Int × IterState α P :=
  match state.f info with
  | VisitOutcome.control IterationControl.Continue => (CONTINUE, state)
  | VisitOutcome.control IterationControl.Break => (BREAK, state)
  | VisitOutcome.panics p => (BREAK, { state with panic := some p })

/-- Modelled from the spec (§6, the external OS loader facility
`dl_iterate_phdr`): invoke the callback once per mapped object, in
loader order; a nonzero callback return stops the iteration.  Returns
the final state and the list of entries the callback was invoked on. -/
def dlIteratePhdr {α P : Type} (state : IterState α P) :
    List α → IterState α P × List α
  | [] => (state, [])
  | x :: xs =>
    let r := callback state x
    if r.1 = 0 then
      let rest := dlIteratePhdr r.2 xs
      (rest.1, x :: rest.2)
    else (r.2, [x])

/-- Embedding of `SharedLibrary::each`: build the per-call state, run
the native iteration to completion, and only then re-raise a captured
panic (`Except.error`) to the caller; `Except.ok` otherwise.  Also
returns the list of visited entries. -/
def eachRun {α P : Type} (f : α → VisitOutcome P) (libs : List α) :
    Except P Unit × List α :=
  let r := dlIteratePhdr { f := f, panic := none } libs
  match r.1.panic with
  | some p => (Except.error p, r.2)
  | none => (Except.ok (), r.2)

/-- The fields of `libc::dl_phdr_info` used by `SharedLibrary::new`:
base address, object name (bytes of the C string), and the header
table (`dlpi_phdr` / `dlpi_phnum`). -/
structure LibInfo where
  dlpi_addr : Nat
  dlpi_name : List Nat
  dlpi_phdr : List Phdr

/-- Lower-case hexadecimal rendering of a number, as `format!`'s `{:x}`. -/
def hexString (n : Nat) : String :=
  String.mk (Nat.toDigits 16 n)

/-- Lossy decoding of a byte string, as `CStr::to_string_lossy` on
ASCII bytes. -/
def lossyString (bytes : List Nat) : String :=
  String.mk (bytes.map Char.ofNat)

/-- The `SharedLibrary` record built by `SharedLibrary::new`. -/
structure SharedLibraryModel where
  size : Nat
  addr : Nat
  name : List Nat
  headers : List Phdr

/-- Embedding of `SharedLibrary::new`: the constructor first prints two
lines to standard output (the `println!` calls), then substitutes the
current executable path for an empty OS-provided name when the lookup
succeeds.  `current_exe()` is modelled as the oracle `exe` (`some` for
`Ok`, `none` for `Err`).  Returns the built record together with the
lines written to standard output. -/
def newModel (info : LibInfo) (size : Nat) (exe : Option (List Nat)) :
    SharedLibraryModel × List String :=
  let printed := ["addr " ++ hexString info.dlpi_addr ++ ", path " ++
      lossyString info.dlpi_name, ""]
  let name :=
    if info.dlpi_name.isEmpty then
      match exe with
      | some e => e
      | none => info.dlpi_name
    else info.dlpi_name
  ({ size := size, addr := info.dlpi_addr, name := name,
     headers := info.dlpi_phdr }, printed)

/-- A concrete NOTE program header used in closed evaluations: window
`[0, 16)` with the given declared alignment. -/
def notePhdr (alignVal : Nat) : Phdr :=
  { phdrDefault with p_type := PT_NOTE, p_align := alignVal, p_offset := 0, p_filesz := 16 }

/-- Embedding of `impl Debug for SharedLibrary`, abstracted to the
sequence of headers handed to `DebugPhdr` formatting: the code formats
`headers[..l-1]` each followed by a comma, then `headers[l-1]`; on an
empty table the index `l - 1` is out of bounds and the formatter
panics, modelled as `none`. -/
def sharedLibraryDebugPhdrs (headers : List Phdr) : Option (List Phdr) :=
  match headers with
  | [] => none
  | _ :: _ =>
    some (headers.take (headers.length - 1) ++
      [headers.getD (headers.length - 1) phdrDefault])

/-- Embedding of `impl Debug for SegmentIter`, abstracted to the header
handed to `DebugPhdr` formatting: the code formats
`self.inner.as_slice()[0]`, which is out of bounds — a panic, modelled
as `none` — when the remaining slice is empty. -/
def segmentIterDebugPhdr (remaining : List Phdr) : Option Phdr :=
  match remaining with
  | [] => none
  | phdr :: _ => some phdr

/-- A concrete visitor used in closed evaluations: panics with payload
7 on entry 20, continues elsewhere. -/
def exVisitorPanic : Nat → VisitOutcome Nat := fun x =>
  if x = 20 then VisitOutcome.panics 7
  else VisitOutcome.control IterationControl.Continue

/-- A concrete visitor used in closed evaluations: requests `Break` on
entry 20, continues elsewhere. -/
def exVisitorBreak : Nat → VisitOutcome Nat := fun x =>
  if x = 20 then VisitOutcome.control IterationControl.Break
  else VisitOutcome.control IterationControl.Continue

end Findshlibs

namespace Findshlibs

/-- C8: `is_code` returns `true` exactly when the segment type is
`PT_LOAD` and the execute-permission bit (0x1) of the flag bitmask is
set; every non-`PT_LOAD` segment yields `false` regardless of flags. -/
theorem is_code_iff_load_and_execute (p : Phdr) :
    is_code p = true ↔ (p.p_type = PT_LOAD ∧ p.p_flags % 2 = 1) := by
  unfold is_code
  by_cases ht : p.p_type = PT_LOAD
  · simp [ht, Nat.and_one_is_mod]
  · simp [ht]

/-- C4: evaluation of `Segment::name` at the failing input
`p_type = PT_SHLIB`: the code yields the truncated label `"SHLI"`,
not the canonical `"SHLIB"` claimed by the specification. -/
theorem segmentName_at_PT_SHLIB :
    segmentName { phdrDefault with p_type := PT_SHLIB } = "SHLI" ∧
      segmentName { phdrDefault with p_type := PT_SHLIB } ≠ "SHLIB" := by
  constructor
  · rfl
  · decide

/-- C5 counterexample: the base address `isize::MAX` itself lies within
the representable signed pointer range, yet `virtual_memory_bias`
fails (the `assert!` panics) there, because the code's guard is the
strict comparison `addr < isize::MAX`. -/
theorem virtual_memory_bias_fails_at_isizeMax :
    isizeMax ≤ 2 ^ 63 - 1 ∧ virtual_memory_bias isizeMax = none := by
  constructor
  · exact Nat.le_refl _
  · simp [virtual_memory_bias]

/-- C5 (amended): `virtual_memory_bias` fails as a fatal precondition
violation whenever the base address is not strictly below `isize::MAX`
(so also at exactly `isize::MAX`, not only above it); under the
precondition that the base address is strictly below `isize::MAX` it
does not fail and returns the base address reinterpreted as the signed
bias. -/
theorem virtual_memory_bias_spec (addr : Nat) :
    (addr < isizeMax → virtual_memory_bias addr = some (Int.ofNat addr)) ∧
    (isizeMax ≤ addr → virtual_memory_bias addr = none) := by
  constructor
  · intro h
    have h63 : addr < 2 ^ 63 := lt_of_lt_of_le h (by unfold isizeMax; omega)
    simp [virtual_memory_bias, usizeToIsize, h, h63]
    omega
  · intro h
    simp [virtual_memory_bias, Nat.not_lt.mpr h]

/-- C5 witness: the amended statement evaluated at the concrete base
addresses 7 (below the bound) and `2 ^ 63` (above it). -/
theorem virtual_memory_bias_spec_witness :
    virtual_memory_bias 7 = some (Int.ofNat 7) ∧
      virtual_memory_bias (2 ^ 63) = none :=
  ⟨(virtual_memory_bias_spec 7).1 (by decide),
    (virtual_memory_bias_spec (2 ^ 63)).2 (by norm_num [isizeMax])⟩

/-- Helper: `align` never decreases the offset. -/
theorem align_le (alignment offset : Nat) : offset ≤ align alignment offset := by
  simp only [align]
  split <;> omega

/-- Helper: once the offset has reached the end of the window, the note
walk stops regardless of remaining fuel. -/
theorem scanNotesGo_stop (mem : Nat → Nat) (addr alignment endO offset : Nat)
    (h : ¬ offset < endO) :
    ∀ fuel, scanNotesGo mem addr alignment endO offset fuel = none := by
  intro fuel
  cases fuel with
  | zero => rfl
  | succ n => simp [scanNotesGo, h]

/-- Helper: the note walk is fuel-indifferent as soon as the fuel is at
least `endO - offset`, since every iteration advances the offset by at
least the 12-byte note header.  In particular the fuel `endO - offset`
supplied by `scanNotes` never runs out. -/
theorem scanNotesGo_fuel (mem : Nat → Nat) (addr alignment endO : Nat) :
    ∀ fuel fuel' offset, endO - offset ≤ fuel → endO - offset ≤ fuel' →
      scanNotesGo mem addr alignment endO offset fuel =
        scanNotesGo mem addr alignment endO offset fuel' := by
  intro fuel
  induction fuel with
  | zero =>
    intro fuel' offset h h'
    have hstop : ¬ offset < endO := by omega
    rw [scanNotesGo_stop mem addr alignment endO offset hstop,
      scanNotesGo_stop mem addr alignment endO offset hstop]
  | succ n ih =>
    intro fuel' offset h h'
    by_cases hlt : offset < endO
    · cases fuel' with
      | zero => omega
      | succ m =>
        have h1 := align_le alignment (offset + 12 + read32 mem (addr + offset))
        have h2 := align_le alignment
          (align alignment (offset + 12 + read32 mem (addr + offset)) +
            read32 mem (addr + offset + 4))
        simp only [scanNotesGo, hlt, if_true]
        by_cases ht : read32 mem (addr + offset + 8) = NT_GNU_BUILD_ID
        · simp [ht]
        · simp only [ht, if_false]
          exact ih m _ (by omega) (by omega)
    · rw [scanNotesGo_stop mem addr alignment endO offset hlt,
        scanNotesGo_stop mem addr alignment endO offset hlt]

/-- Helper: the note walk of the source equals finding the first
record of type `NT_GNU_BUILD_ID` in the spec-side record sequence and
taking its descriptor. -/
theorem scanNotesGo_eq_find (mem : Nat → Nat) (addr alignment endO : Nat) :
    ∀ (fuel offset : Nat),
      scanNotesGo mem addr alignment endO offset fuel =
        ((parseRecordsGo mem addr alignment endO offset fuel).find?
          fun record => record.1 == NT_GNU_BUILD_ID).map Prod.snd := by
  intro fuel
  induction fuel with
  | zero => intro offset; rfl
  | succ n ih =>
    intro offset
    simp only [scanNotesGo, parseRecordsGo]
    by_cases h : offset < endO
    · simp only [h, if_true]
      by_cases ht : read32 mem (addr + offset + 8) = NT_GNU_BUILD_ID
      · simp [ht]
      · simp [ht, ih]
    · simp [h]

/-- Helper: `scanNotes` as first-matching-record lookup over
`parseRecords`. -/
theorem scanNotes_eq_find (mem : Nat → Nat) (addr alignment offset endO : Nat) :
    scanNotes mem addr alignment offset endO =
      ((parseRecords mem addr alignment offset endO).find?
        fun record => record.1 == NT_GNU_BUILD_ID).map Prod.snd :=
  scanNotesGo_eq_find mem addr alignment endO (endO - offset) offset

/-- C1: `SharedLibrary::id` behaves exactly as specified: it scans the
header table in order considering only `PT_NOTE` segments, normalizes
the declared alignment to a minimum of 4, skips a segment whose
normalized alignment is neither 4 nor 8 without failing the call,
walks the note records of the window as 32-bit
namesz/descsz/type headers with name and descriptor bytes padded to
the alignment, returns the descriptor of the first record of type 3
copied out, and returns `none` when there is no NOTE segment or no
record of type 3. -/
theorem id_matches_spec (mem : Nat → Nat) (addr : Nat) :
    ∀ headers : List Phdr, idModel mem addr headers = idSpec mem addr headers := by
  intro headers
  induction headers with
  | nil => rfl
  | cons phdr rest ih =>
    rw [idModel, idSpec, List.findSome?_cons]
    by_cases hp : phdr.p_type = PT_NOTE
    · rw [if_neg (by simp [hp]), if_pos hp]
      by_cases ha : phdr.p_align < 4
      · have hmax : max 4 phdr.p_align = 4 := Nat.max_eq_left (Nat.le_of_lt ha)
        rw [if_pos ha, hmax, if_pos (Or.inl rfl), ← scanNotes_eq_find]
        cases hscan : scanNotes mem addr 4 phdr.p_offset (phdr.p_offset + phdr.p_filesz) with
        | none => exact ih
        | some value => rfl
      · have hge : 4 ≤ phdr.p_align := Nat.le_of_not_lt ha
        have hmax : max 4 phdr.p_align = phdr.p_align := Nat.max_eq_right hge
        rw [if_neg ha, hmax]
        by_cases hskip : phdr.p_align ≠ 4 ∧ phdr.p_align ≠ 8
        · rw [if_pos hskip, if_neg (by tauto)]
          exact ih
        · have hor : phdr.p_align = 4 ∨ phdr.p_align = 8 := by tauto
          rw [if_neg hskip, if_pos hor, ← scanNotes_eq_find]
          cases hscan : scanNotes mem addr phdr.p_align phdr.p_offset
              (phdr.p_offset + phdr.p_filesz) with
          | none => exact ih
          | some value => rfl
    · rw [if_pos hp, if_neg hp]
      exact ih

/-- C3 counterexample: a NOTE segment declaring alignment 0 — a value
other than 4 or 8 — is not skipped: `id()` normalizes the alignment up
to 4, scans the segment, and here returns the build id stored in it,
refuting the claim that such a segment yields no build id. -/
theorem id_alignment_zero_yields_build_id :
    idModel (memOfList [0, 0, 0, 0, 4, 0, 0, 0, 3, 0, 0, 0, 170, 187, 204, 221]) 0
      [notePhdr 0] = some [170, 187, 204, 221] := by
  decide

/-- C3 (amended): a NOTE segment whose normalized alignment — the
declared alignment raised to a minimum of 4 — is neither 4 nor 8 is
skipped: note scanning does not abort and the segment contributes no
build id; the scan simply proceeds with the remaining headers. -/
theorem id_skips_nonstandard_alignment (mem : Nat → Nat) (addr : Nat)
    (phdr : Phdr) (rest : List Phdr) (hnote : phdr.p_type = PT_NOTE)
    (h4 : max 4 phdr.p_align ≠ 4) (h8 : max 4 phdr.p_align ≠ 8) :
    idModel mem addr (phdr :: rest) = idModel mem addr rest := by
  have hgt : 4 < phdr.p_align := by omega
  have hne8 : phdr.p_align ≠ 8 := by omega
  rw [idModel, if_neg (by simp [hnote]), if_neg (by omega),
    if_pos ⟨by omega, hne8⟩]

/-- C3 witness: the amended statement applied to a concrete NOTE
segment of declared alignment 16. -/
theorem id_skips_nonstandard_alignment_witness :
    idModel (fun _ => 0) 0 [notePhdr 16] = none :=
  (id_skips_nonstandard_alignment (fun _ => 0) 0 (notePhdr 16) []
    rfl (by decide) (by decide)).trans rfl

/-- Helper: the native iteration visits exactly the prefix of the
loader's sequence ending at the first entry on which the visitor stops.
If the visitor returns `Continue` on the first `j` entries and `Break`
or a panic on entry `j`, `dl_iterate_phdr` invokes the callback on
exactly the first `j + 1` entries, and the final per-call state carries
the panic payload exactly in the panic case. -/
theorem dlIter_stop {α P : Type} (f : α → VisitOutcome P) :
    ∀ (libs : List α) (j : Nat) (xj : α),
      libs.get? j = some xj →
      (∀ x ∈ libs.take j, f x = VisitOutcome.control IterationControl.Continue) →
      ((f xj = VisitOutcome.control IterationControl.Break →
          dlIteratePhdr { f := f, panic := none } libs =
            ({ f := f, panic := none }, libs.take (j + 1))) ∧
        (∀ p, f xj = VisitOutcome.panics p →
          dlIteratePhdr { f := f, panic := none } libs =
            ({ f := f, panic := some p }, libs.take (j + 1)))) := by
  intro libs
  induction libs with
  | nil => intro j xj hget _; simp at hget
  | cons x xs ih =>
    intro j xj hget hcont
    cases j with
    | zero =>
      have hx : x = xj := by simpa using hget
      subst hx
      constructor
      · intro hbrk
        simp [dlIteratePhdr, callback, hbrk, BREAK, CONTINUE]
      · intro p hp
        simp [dlIteratePhdr, callback, hp, BREAK, CONTINUE]
    | succ j =>
      have hx : f x = VisitOutcome.control IterationControl.Continue :=
        hcont x (by simp)
      have hcont' : ∀ y ∈ xs.take j,
          f y = VisitOutcome.control IterationControl.Continue :=
        fun y hy => hcont y (by simp [hy])
      have hget' : xs.get? j = some xj := by simpa using hget
      obtain ⟨ihb, ihp⟩ := ih j xj hget' hcont'
      constructor
      · intro hbrk
        simp [dlIteratePhdr, callback, hx, CONTINUE, ihb hbrk]
      · intro p hp
        simp [dlIteratePhdr, callback, hx, CONTINUE, ihp p hp]

/-- C2: when the visitor panics during a callback, the callback returns
the nonzero stop code `BREAK` instead of unwinding (so enumeration
stops immediately after that entry), the payload is captured in the
per-call state, and `each` re-raises the panic (`Except.error`) only
after the native iteration has returned, as the final step of
`eachRun`. -/
theorem each_panic_bridging {α P : Type} (libs : List α) (f : α → VisitOutcome P)
    (j : Nat) (xj : α) (p : P)
    (hget : libs.get? j = some xj)
    (hcont : ∀ x ∈ libs.take j, f x = VisitOutcome.control IterationControl.Continue)
    (hpanic : f xj = VisitOutcome.panics p) :
    (callback { f := f, panic := none } xj).1 = BREAK ∧
    BREAK ≠ CONTINUE ∧
    (callback { f := f, panic := none } xj).2.panic = some p ∧
    eachRun f libs = (Except.error p, libs.take (j + 1)) := by
  have hdl := (dlIter_stop f libs j xj hget hcont).2 p hpanic
  refine ⟨by simp [callback, hpanic], by decide, by simp [callback, hpanic], ?_⟩
  simp [eachRun, hdl]

/-- C2 witness: the panic bridging evaluated on the concrete loader
sequence `[10, 20, 30]` with a visitor that panics (payload 7) on the
second entry. -/
theorem each_panic_bridging_witness :
    (callback { f := exVisitorPanic, panic := none } 20).1 = BREAK ∧
    BREAK ≠ CONTINUE ∧
    (callback { f := exVisitorPanic, panic := none } 20).2.panic = some 7 ∧
    eachRun exVisitorPanic [10, 20, 30] = (Except.error 7, [10, 20]) :=
  each_panic_bridging [10, 20, 30] exVisitorPanic 1 20 7 (by decide) (by decide)
    (by decide)

/-- C7: when the visitor returns `Continue` on the first `j` entries
and `Break` on entry `j` (the `k`-th entry with `k = j + 1`), the
callback signals the nonzero stop code after that entry and exactly
`k` entries are visited; the count is a function of the inputs, hence
deterministic. -/
theorem each_break_count {α P : Type} (libs : List α) (f : α → VisitOutcome P)
    (j : Nat) (xj : α)
    (hget : libs.get? j = some xj)
    (hcont : ∀ x ∈ libs.take j, f x = VisitOutcome.control IterationControl.Continue)
    (hbrk : f xj = VisitOutcome.control IterationControl.Break) :
    eachRun f libs = (Except.ok (), libs.take (j + 1)) ∧
    (eachRun f libs).2.length = j + 1 ∧
    (callback { f := f, panic := none } xj).1 = BREAK ∧ BREAK ≠ CONTINUE := by
  have hdl := (dlIter_stop f libs j xj hget hcont).1 hbrk
  have hlen : j < libs.length := by
    rcases List.get?_eq_some.mp hget with ⟨h, _⟩
    exact h
  refine ⟨by simp [eachRun, hdl], ?_, by simp [callback, hbrk], by decide⟩
  simp [eachRun, hdl, List.length_take]
  omega

/-- C7 witness: `Break` on the second of three entries visits exactly
two entries. -/
theorem each_break_count_witness :
    eachRun exVisitorBreak [10, 20, 30] = (Except.ok (), [10, 20]) ∧
    (eachRun exVisitorBreak [10, 20, 30]).2.length = 2 ∧
    (callback { f := exVisitorBreak, panic := none } 20).1 = BREAK ∧
    BREAK ≠ CONTINUE :=
  each_break_count [10, 20, 30] exVisitorBreak 1 20 (by decide) (by decide)
    (by decide)

/-- C6: when the OS-provided name is empty, the constructed handle's
name is the current executable path if the lookup succeeds and stays
empty (with no error) if it fails; a non-empty OS-provided name is
kept unchanged. -/
theorem new_name_fallback (info : LibInfo) (size : Nat) (exe : Option (List Nat)) :
    (info.dlpi_name = [] → (newModel info size exe).1.name = exe.getD []) ∧
    (info.dlpi_name ≠ [] → (newModel info size exe).1.name = info.dlpi_name) := by
  constructor
  · intro h
    cases exe with
    | none => simp [newModel, h]
    | some e => simp [newModel, h]
  · intro h
    cases hn : info.dlpi_name with
    | nil => exact absurd hn h
    | cons b bs => simp [newModel, hn]

/-- C6 witness: the name fallback evaluated with an empty OS name and a
successful lookup, an empty OS name and a failed lookup, and a
non-empty OS name. -/
theorem new_name_fallback_witness :
    (newModel ⟨0, [], []⟩ 0 (some [104, 105])).1.name = [104, 105] ∧
    (newModel ⟨0, [], []⟩ 0 none).1.name = [] ∧
    (newModel ⟨0, [97], []⟩ 0 none).1.name = [97] :=
  ⟨((new_name_fallback ⟨0, [], []⟩ 0 (some [104, 105])).1 rfl).trans rfl,
   ((new_name_fallback ⟨0, [], []⟩ 0 none).1 rfl).trans rfl,
   (new_name_fallback ⟨0, [97], []⟩ 0 none).2 (by decide)⟩

/-- C9: evaluation of the library-handle construction at a concrete
callback input: `SharedLibrary::new` writes two lines to standard
output (its `println!` calls) on every invocation, so enumeration does
perform an observable process-wide side effect beyond invoking the
visitor. -/
theorem new_prints_to_stdout :
    (newModel ⟨0, [], []⟩ 0 none).2 = ["addr 0, path ", ""] ∧
    (newModel ⟨0, [], []⟩ 0 none).2 ≠ ([] : List String) := by
  constructor
  · rfl
  · decide

/-- Helper: a non-empty list is its first `length - 1` elements
followed by its last element. -/
theorem take_getD_last :
    ∀ hs : List Phdr, hs ≠ [] →
      hs.take (hs.length - 1) ++ [hs.getD (hs.length - 1) phdrDefault] = hs := by
  intro hs
  induction hs with
  | nil => intro h; exact absurd rfl h
  | cons x xs ih =>
    intro _
    cases xs with
    | nil => rfl
    | cons y ys =>
      have h' : (y :: ys) ≠ [] := by simp
      have hrec := ih h'
      simp only [List.length_cons, Nat.add_sub_cancel, List.take_succ_cons,
        List.getD_cons_succ, List.cons_append] at *
      rw [hrec]

/-- C10: `Debug` formatting is total only for non-empty segment data:
formatting a `SharedLibrary` with an empty header table panics
(modelled `none`), formatting a `SegmentIter` whose remaining slice is
empty panics (modelled `none`), and for a non-empty header table the
sequence of headers handed to `DebugPhdr` is exactly the table — every
header formatted exactly once, in order. -/
theorem debug_totality (headers : List Phdr) :
    sharedLibraryDebugPhdrs ([] : List Phdr) = none ∧
    segmentIterDebugPhdr ([] : List Phdr) = none ∧
    (headers ≠ [] → sharedLibraryDebugPhdrs headers = some headers) := by
  refine ⟨rfl, rfl, ?_⟩
  intro h
  cases headers with
  | nil => exact absurd rfl h
  | cons x xs =>
    simp only [sharedLibraryDebugPhdrs]
    rw [take_getD_last (x :: xs) h]

/-- C10 witness: the `Debug` property evaluated on a concrete
two-element header table. -/
theorem debug_totality_witness :
    sharedLibraryDebugPhdrs [notePhdr 0, notePhdr 16] =
      some [notePhdr 0, notePhdr 16] :=
  (debug_totality [notePhdr 0, notePhdr 16]).2.2 (by simp)

end Findshlibs
